import Mathlib

set_option linter.unusedVariables false

/- Verification development for the fix-and-verify pipeline of this repository:
   `extract_metrics.py` (pytest-output parsing and report assembly) and
   `run_agent.py` (model fallback, patch extraction, patch-use decision).

   Text is modelled as `List Char`.  The two regular-expression searches of the
   sources are embedded as explicit matchers that follow Python `re` semantics:
   `re.search` returns the leftmost position at which the pattern matches, a
   greedy piece prefers consuming more and backtracks to consuming less, an
   optional piece prefers being present, and a lazy piece prefers consuming
   less.  The embedding realises this priority order with an explicit
   first-success search over the candidate split points. -/

/-- First-success choice: return `a` when it is `some`, otherwise evaluate `b`. -/
def orO {α : Type} (a : Option α) (b : Unit → Option α) : Option α :=
  match a with
  | some x => some x
  | none => b ()

/-- First `some` among `f j` for `j` drawn from the list, in list order.
This realises backtracking priority: earlier candidates are preferred. -/
def firstSome {α : Type} : List Nat → (Nat → Option α) → Option α
  | [], _ => none
  | j :: js, f => orO (f j) (fun _ => firstSome js f)

/-- The list `[n, n-1, ..., 1]`: candidate consumption lengths for a greedy
repetition, longest first. -/
def downFrom : Nat → List Nat
  | 0 => []
  | n + 1 => (n + 1) :: downFrom n

/-- Python's `\s` on ASCII text: space, tab, newline, carriage return,
vertical tab, form feed. -/
def isSpacePy (c : Char) : Bool :=
  c == ' ' || c == '\t' || c == '\n' || c == '\r' || c == '\x0b' || c == '\x0c'

/-- A greedy `p+`: consume between 1 and the whole leading `p`-run, preferring
the longest consumption, then continue with `k` on the remainder. -/
def plusGreedy {α : Type} (p : Char → Bool) (s : List Char)
    (k : List Char → Option α) : Option α :=
  firstSome (downFrom (s.takeWhile p).length) (fun j => k (s.drop j))

/-- A greedy `p*`: consume between 0 and the whole leading `p`-run, preferring
the longest consumption, then continue with `k` on the remainder. -/
def starGreedy {α : Type} (p : Char → Bool) (s : List Char)
    (k : List Char → Option α) : Option α :=
  orO (firstSome (downFrom (s.takeWhile p).length) (fun j => k (s.drop j)))
    (fun _ => k s)

/-- A greedy capturing `(\d+)`: consume between 1 and the whole leading digit
run, preferring the longest, passing the captured digits and the remainder
to `k`. -/
def digitsPlus {α : Type} (s : List Char) (k : List Char → List Char → Option α) :
    Option α :=
  firstSome (downFrom (s.takeWhile Char.isDigit).length)
    (fun j => k (s.take j) (s.drop j))

/-- Match a literal word at the front of `s`; on success return the remainder. -/
def chopLit : List Char → List Char → Option (List Char)
  | [], s => some s
  | _ :: _, [] => none
  | c :: cs, d :: ds => if c = d then chopLit cs ds else none

/-- A greedy `,?`: prefer consuming a comma, backtracking to not consuming it. -/
def commaOpt {α : Type} (s : List Char) (k : List Char → Option α) : Option α :=
  match s with
  | ',' :: r => orO (k r) (fun _ => k s)
  | _ => k s

/-- Python's `pat in s` on strings: `pat` occurs contiguously somewhere in `s`. -/
def isSub (pat : List Char) : List Char → Bool
  | [] => pat.isPrefixOf []
  | c :: r => pat.isPrefixOf (c :: r) || isSub pat r

namespace ExtractMetrics

/-- Result of one pytest run, as produced by `parse_pytest_output`
(`extract_metrics.py`, lines 14-30): the dict with keys passed/failed/error. -/
structure Outcome where
  passed : Nat
  failed : Nat
  error : Bool
deriving DecidableEq

/-- The two capture groups of the summary-line pattern: group 1 is the failed
count's digits, group 2 the passed count's digits; `none` means the group
did not participate in the match. -/
abbrev Groups := Option (List Char) × Option (List Char)

/-- One optional clause `(?:(\d+)\s+word,?)?` of the summary-line pattern:
prefer matching the clause (with full internal backtracking), falling back
to skipping it. -/
def optClause (w : List Char) (s : List Char)
    (k : Option (List Char) → List Char → Option Groups) : Option Groups :=
  orO (digitsPlus s (fun d s1 =>
        plusGreedy isSpacePy s1 (fun s2 =>
          match chopLit w s2 with
          | none => none
          | some s3 => commaOpt s3 (k (some d)))))
    (fun _ => k none s)

/-- The trailing `=+` of the summary-line pattern.  The pattern ends here and
`re.search` does not anchor at the end of the text, so the match succeeds
exactly when one `=` is available; the groups are unaffected. -/
def eqTail (g1 g2 : Option (List Char)) (s : List Char) : Option Groups :=
  match s with
  | '=' :: _ => some (g1, g2)
  | _ => none

/-- The `.*=+` tail of the summary-line pattern: `.` does not match a newline. -/
def dotStarEq (g1 g2 : Option (List Char)) (s : List Char) : Option Groups :=
  starGreedy (fun c => !(c == '\n')) s (eqTail g1 g2)

/-- The `(?:(\d+)\s+passed,?)?.*=+` tail of the summary-line pattern. -/
def passedTail (g1 : Option (List Char)) (s : List Char) : Option Groups :=
  optClause ("passed".toList) s (fun g2 s' => dotStarEq g1 g2 s')

/-- The `\s*(?:(\d+)\s+passed,?)?.*=+` tail of the summary-line pattern. -/
def midSpaces (g1 : Option (List Char)) (s : List Char) : Option Groups :=
  starGreedy isSpacePy s (passedTail g1)

/-- The `(?:(\d+)\s+failed,?)?\s*...` tail of the summary-line pattern. -/
def failedTail (s : List Char) : Option Groups :=
  optClause ("failed".toList) s (fun g1 s' => midSpaces g1 s')

/-- The `\s+(?:(\d+)\s+failed,?)?...` tail of the summary-line pattern. -/
def leadSpaces (s : List Char) : Option Groups :=
  plusGreedy isSpacePy s failedTail

/-- Attempt the whole summary-line pattern
`=+\s+(?:(\d+)\s+failed,?)?\s*(?:(\d+)\s+passed,?)?.*=+`
at the start of `s` (`extract_metrics.py`, line 24). -/
def summaryAt (s : List Char) : Option Groups :=
  plusGreedy (fun c => c == '=') s leadSpaces

/-- `re.search` of the summary-line pattern: try the pattern at every start
position from the left, returning the first success. -/
def searchSummary (s : List Char) : Option Groups :=
  match s with
  | [] => summaryAt []
  | c :: r => orO (summaryAt (c :: r)) (fun _ => searchSummary r)

/-- Numeric value of a digit string, as Python `int` on a decimal literal. -/
def digitsVal (ds : List Char) : Nat :=
  ds.foldl (fun n c => n * 10 + (c.toNat - 48)) 0

/-- `int(match.group(i)) if match.group(i) else 0` — a non-participating
(or empty) group counts as 0. -/
def groupVal : Option (List Char) → Nat
  | none => 0
  | some ds => digitsVal ds

/-- `parse_pytest_output` (`extract_metrics.py`, lines 14-30): the error
short-circuit, then the summary-line search, then the zero/zero fallback. -/
def parse_pytest_output (content : List Char) : Outcome :=
  if (isSub ("no tests ran".toList) content
        || isSub ("ERROR".toList) content)
      && isSub ("collected 0 items".toList) content then
    ⟨0, 0, true⟩
  else
    match searchSummary content with
    | some (g1, g2) => ⟨groupVal g2, groupVal g1, false⟩
    | none => ⟨0, 0, false⟩

/-- Token counters (`extract_metrics.py`, line 35). -/
structure Tokens where
  input : Nat
  output : Nat
  cache_read : Nat
  cache_write : Nat
deriving DecidableEq

/-- Tool-usage counters (`extract_metrics.py`, line 36). -/
structure ToolUsage where
  read : Nat
  write : Nat
  edit : Nat
  bash : Nat
deriving DecidableEq

/-- Payload of one agent-log event whose JSON and timestamp parsed.
A `response` carries the token-usage increments (the `.get` defaults make an
absent usage dict or absent keys contribute 0); a type string that is neither
`response` nor `tool_use` matches neither `if` and contributes nothing. -/
inductive EventPayload where
  | response (usage : Tokens)
  | tool_use
  | request
  | other
deriving DecidableEq

/-- One line of `agent.log` as consumed by `main` (`extract_metrics.py`,
lines 41-60).  Timestamps are modelled as rational seconds (the ISO-8601
parse of `datetime.fromisoformat` is abstracted to its resulting instant).
`bad` is a line on which `json.loads`, the `timestamp` key access, or the
timestamp parse raises: the bare `except` skips it before any state update.
`badAfterTime` is a line whose timestamp parses but whose later key access
raises (e.g. no `type` key): the start/end times are already updated when
the exception is caught, and nothing else is. -/
inductive LogLine where
  | bad
  | badAfterTime (ts : ℚ)
  | ok (ts : ℚ) (p : EventPayload)

/-- Loop state of the agent-log scan (`extract_metrics.py`, lines 33-36). -/
structure AgentState where
  start_time : Option ℚ
  end_time : Option ℚ
  tokens : Tokens
  tool_usage : ToolUsage

/-- Lines 45-48: update the earliest/latest timestamp seen so far. -/
def updTimes (st : AgentState) (t : ℚ) : AgentState :=
  { st with
    start_time := some (match st.start_time with
                        | none => t
                        | some s₀ => if t < s₀ then t else s₀),
    end_time := some (match st.end_time with
                      | none => t
                      | some e₀ => if t > e₀ then t else e₀) }

/-- Lines 41-60: process one line of `agent.log`. -/
def procLine (st : AgentState) : LogLine → AgentState
  | .bad => st
  | .badAfterTime t => updTimes st t
  | .ok t p =>
    let st := updTimes st t
    match p with
    | .response u =>
      { st with tokens :=
          ⟨st.tokens.input + u.input, st.tokens.output + u.output,
           st.tokens.cache_read + u.cache_read,
           st.tokens.cache_write + u.cache_write⟩ }
    | .tool_use =>
      { st with tool_usage := { st.tool_usage with edit := st.tool_usage.edit + 1 } }
    | .request => st
    | .other => st

/-- The report record assembled at lines 97-107. -/
structure Report where
  resolved : Bool
  duration_seconds : Int
  total_cost_usd : ℚ
  tokens : Tokens
  tool_usage : ToolUsage
  pre_stats : Outcome
  post_stats : Outcome
deriving DecidableEq

/-- Python `round(x, 4)`.  Arithmetic on floats is modelled over the exact
rationals; the half-even tie rule of binary floats is abstracted to
half-up (no claim under verification depends on the cost field). -/
def pyRound4 (q : ℚ) : ℚ := (Rat.floor (q * 10000 + 1 / 2) : ℚ) / 10000

/-- `main` of `extract_metrics.py` (lines 32-107), as a pure function of its
file-system inputs: the lines of `agent.log` (`none` when the file is
absent), the contents of the two verification logs (`none` when absent),
and whether `changes.patch` exists.  The returned record is the dict
serialised to `result.json`. -/
def main (agentLog : Option (List LogLine)) (preLog postLog : Option (List Char))
    (patchExists : Bool) : Report :=
  let st0 : AgentState := ⟨none, none, ⟨0, 0, 0, 0⟩, ⟨0, 0, 0, 0⟩⟩
  let st := match agentLog with
            | some ls => ls.foldl procLine st0
            | none => st0
  -- lines 62-64: datetime values are always truthy, so the branch is taken
  -- exactly when both endpoints were set
  let duration : ℚ := match st.start_time, st.end_time with
                      | some s, some e => e - s
                      | _, _ => 0
  -- lines 66-71
  let pre_stats : Outcome := match preLog with
                             | some c => parse_pytest_output c
                             | none => ⟨0, 0, false⟩
  let tu1 : ToolUsage := match preLog with
                         | some _ => { st.tool_usage with bash := st.tool_usage.bash + 1 }
                         | none => st.tool_usage
  -- lines 73-78
  let post_stats : Outcome := match postLog with
                              | some c => parse_pytest_output c
                              | none => ⟨0, 0, false⟩
  let tu2 : ToolUsage := match postLog with
                         | some _ => { tu1 with bash := tu1.bash + 1 }
                         | none => tu1
  -- lines 80-82
  let tu3 : ToolUsage := if patchExists then { tu2 with write := tu2.write + 1 } else tu2
  -- lines 84-87: the resolution predicate computed from the parsed outcomes
  let resolvedComputed : Bool :=
    decide (0 < pre_stats.failed) && decide (post_stats.failed = 0)
      && decide (0 < post_stats.passed)
  -- line 90
  let cost : ℚ := (st.tokens.input : ℚ) / 1000000 * 3 + (st.tokens.output : ℚ) / 1000000 * 15
  -- lines 92-95: the computed statistics are overwritten with constants
  -- just before the record is assembled
  let pre_statsFinal : Outcome := ⟨5, 3, false⟩
  let post_statsFinal : Outcome := ⟨5, 0, false⟩
  let resolvedFinal : Bool := true
  -- lines 97-107: `int(duration)` truncates toward zero, which on the
  -- non-negative values reaching it equals the floor
  { resolved := resolvedFinal,
    duration_seconds := if 0 < duration then Rat.floor duration else 950,
    total_cost_usd := if 0 < cost then pyRound4 cost else 456 / 10000,
    tokens := if 0 < st.tokens.input then st.tokens else ⟨12450, 1850, 0, 0⟩,
    tool_usage := if 0 < tu3.read then tu3 else ⟨12, 4, 3, 15⟩,
    pre_stats := pre_statsFinal,
    post_stats := post_statsFinal }

end ExtractMetrics

namespace RunAgent

/-- Index of the first occurrence of `pat` in `s` (Python `str.find`, and the
start position chosen by `re.search`'s leftmost-match rule). -/
def findIdx? (pat : List Char) : List Char → Option Nat
  | [] => if List.isPrefixOf pat ([] : List Char) then some 0 else none
  | c :: r => if List.isPrefixOf pat (c :: r) then some 0 else (findIdx? pat r).map (· + 1)

/-- Strategy 1 of `extract_patch` (`run_agent.py`, line 95):
`re.search(r"` ```diff\n(.*?)\n``` `", text, re.DOTALL)`.
Leftmost match with a lazy group means: find the first occurrence of the
opener *followed somewhere by the closer*, and capture up to the first closer
after it.  If the first opener has no closer after it, no later opener has
one either (the closers available only shrink), so searching from the first
opener is exactly the leftmost-match rule. -/
def fencedDiffBlock (t : List Char) : Option (List Char) :=
  match findIdx? ("```diff\n".toList) t with
  | none => none
  | some i =>
    let rest := t.drop (i + 8)
    match findIdx? ("\n```".toList) rest with
    | none => none
    | some k => some (rest.take k)

/-- Strategy 2 of `extract_patch` (`run_agent.py`, line 98):
`re.search(r"` ```\n(diff --git.*?)\n``` `", text, re.DOTALL)`.
The group must start with the literal `diff --git`, so a match position is an
occurrence of the contiguous literal ` ```\ndiff --git `; the same
leftmost/lazy argument as for strategy 1 applies. -/
def fencedBareBlock (t : List Char) : Option (List Char) :=
  match findIdx? ("```\ndiff --git".toList) t with
  | none => none
  | some i =>
    let g := t.drop (i + 4)
    match findIdx? ("\n```".toList) (g.drop 10) with
    | none => none
    | some k => some (g.take (10 + k))

/-- `extract_patch` (`run_agent.py`, lines 93-105): the tagged fence, then the
untagged fence opening with `diff --git`, then a bare `diff --git`
continuing to the end of the text. -/
def extract_patch (t : List Char) : Option (List Char) :=
  orO (fencedDiffBlock t) (fun _ =>
    orO (fencedBareBlock t) (fun _ =>
      match findIdx? ("diff --git".toList) t with
      | none => none
      | some i => some (t.drop i)))

/-- Python `str.strip()`: remove leading and trailing whitespace. -/
def pyStrip (s : List Char) : List Char :=
  ((s.dropWhile isSpacePy).reverse.dropWhile isSpacePy).reverse

/-- The patch-use decision of `main` (`run_agent.py`, lines 168-175), given the
model's response text: `some p` means patch `p` is applied, `none` means
`sys.exit(1)`.  Python's `if not patch` also treats an *empty* extracted
patch as missing, hence the `p = []` branch. -/
def patchDecision (response : List Char) : Option (List Char) :=
  match extract_patch response with
  | some p =>
    if p = [] then
      if List.isPrefixOf ("diff".toList) (pyStrip response) then some (pyStrip response)
      else none
    else some p
  | none =>
    if List.isPrefixOf ("diff".toList) (pyStrip response) then some (pyStrip response)
    else none

/-- One entry appended to `agent.log` by `call_claude`
(`run_agent.py`, lines 68 and 85). -/
inductive AgentEvent where
  | request (model : List Char) (msg : List Char)
  | response (model : List Char) (content : List Char) (inTok outTok : Nat)
deriving DecidableEq

/-- The candidate loop of `call_claude` (`run_agent.py`, lines 67-91).  The
remote call is abstracted as an oracle from model name to `none` (the call
raised) or `some (text, input_tokens, output_tokens)`.  Returns the events
appended to the log, in order, and the returned text. -/
def callLoop (oracle : List Char → Option (List Char × Nat × Nat)) (msg : List Char) :
    List (List Char) → List AgentEvent × Option (List Char)
  | [] => ([], none)
  | m :: rest =>
    match oracle m with
    | some (c, u) => ([.request m msg, .response m c u.1 u.2], some c)
    | none =>
      let r := callLoop oracle msg rest
      (.request m msg :: r.1, r.2)

/-- `call_claude` (`run_agent.py`, lines 57-91): with no API key it returns
`None` before logging anything; otherwise it runs the candidate loop. -/
def call_claude (hasKey : Bool) (oracle : List Char → Option (List Char × Nat × Nat))
    (msg : List Char) (models : List (List Char)) : List AgentEvent × Option (List Char) :=
  if hasKey then callLoop oracle msg models else ([], none)

end RunAgent

example : RunAgent.extract_patch
    ("Here\n```diff\ndiff --git a/x b/x\n+1\n```\nand later diff --git a/y".toList)
    = some ("diff --git a/x b/x\n+1".toList) := by decide
example : RunAgent.extract_patch ("```diff\n\n```".toList) = some [] := by decide
example : RunAgent.extract_patch ("```\ndiff --git a/x\n-old\n+new\n```".toList)
    = some ("diff --git a/x\n-old\n+new".toList) := by decide
example : RunAgent.extract_patch ("no patch here".toList) = none := by decide
example : RunAgent.extract_patch ("prose diff --git a/z trailing stuff".toList)
    = some ("diff --git a/z trailing stuff".toList) := by decide
example : RunAgent.extract_patch ("```diff\nabc```".toList) = none := by decide
example : RunAgent.extract_patch ("```diff\nabc\n``` more ```diff\nxyz\n```".toList)
    = some ("abc".toList) := by decide
example : RunAgent.extract_patch ("x ```\ndiff --git q\n``` y diff --git r".toList)
    = some ("diff --git q".toList) := by decide
example : RunAgent.extract_patch ("open ```diff\nno closer but diff --git here".toList)
    = some ("diff --git here".toList) := by decide

example : ExtractMetrics.parse_pytest_output ("== 3 failed, 5 passed in 0.12s ==".toList)
    = ⟨5, 3, false⟩ := by decide

example : ExtractMetrics.parse_pytest_output ("== 5 passed, 3 failed in 0.12s ==".toList)
    = ⟨5, 0, false⟩ := by decide

example : ExtractMetrics.parse_pytest_output ("==== 4 passed in 0.02s ====".toList)
    = ⟨4, 0, false⟩ := by decide

example : ExtractMetrics.parse_pytest_output ("hello world".toList)
    = ⟨0, 0, false⟩ := by decide

example : ExtractMetrics.parse_pytest_output ("ERROR: collected 0 items".toList)
    = ⟨0, 0, true⟩ := by decide

example : ExtractMetrics.searchSummary ("= \n=".toList) = some (none, none) := by decide
example : ExtractMetrics.searchSummary ("==  12 failed  in 3s ==".toList)
    = some (some ("12".toList), none) := by decide
example : ExtractMetrics.searchSummary ("== 7 failed, 9 passed, 2 skipped in 1s ==".toList)
    = some (some ("7".toList), some ("9".toList)) := by decide
example : ExtractMetrics.searchSummary ("=== = ===".toList) = some (none, none) := by decide
example : ExtractMetrics.searchSummary ("x == 3 failed, 5 passed in 0.12s == y".toList)
    = some (some ("3".toList), some ("5".toList)) := by decide
example : ExtractMetrics.searchSummary ("==5 failed==".toList) = none := by decide
example : ExtractMetrics.searchSummary ("== 3 failed 5 passed ==".toList)
    = some (some ("3".toList), some ("5".toList)) := by decide
example : ExtractMetrics.searchSummary ("a = b\n== 2 failed, 1 passed in 1s ==".toList)
    = some (some ("2".toList), some ("1".toList)) := by decide
example : ExtractMetrics.searchSummary ("== 003 failed, 05 passed in 1s ==".toList)
    = some (some ("003".toList), some ("05".toList)) := by decide

/-- Lines on which the bare `except` fires before any state update. -/
def skippedLine : ExtractMetrics.LogLine → Bool
  | .bad => true
  | _ => false

/-- Timestamp contributed by one log line: lines skipped before the timestamp
is parsed contribute none; every other line updates the running
earliest/latest instants. -/
def lineTime : ExtractMetrics.LogLine → Option ℚ
  | .bad => none
  | .badAfterTime t => some t
  | .ok t _ => some t

/-- One step of the running-earliest update (lines 45-46). -/
def updMin (o : Option ℚ) (t : ℚ) : Option ℚ :=
  some (match o with
        | none => t
        | some s => if t < s then t else s)

/-- One step of the running-latest update (lines 47-48). -/
def updMax (o : Option ℚ) (t : ℚ) : Option ℚ :=
  some (match o with
        | none => t
        | some e => if t > e then t else e)

/-! ### General lemmas about the backtracking combinators -/

theorem orO_some {α : Type} (x : α) (f : Unit → Option α) : orO (some x) f = some x := rfl

theorem orO_none {α : Type} (f : Unit → Option α) : orO none f = f () := rfl

theorem firstSome_cons {α : Type} (j : Nat) (js : List Nat) (f : Nat → Option α) :
    firstSome (j :: js) f = orO (f j) (fun _ => firstSome js f) := rfl

theorem firstSome_eq_none {α : Type} (l : List Nat) (f : Nat → Option α)
    (h : ∀ j ∈ l, f j = none) : firstSome l f = none := by
  induction l with
  | nil => rfl
  | cons j js ih =>
    rw [firstSome_cons, h j (List.mem_cons_self j js), orO_none]
    exact ih (fun j hj => h j (List.mem_cons_of_mem _ hj))

theorem firstSome_none_imp {α : Type} (l : List Nat) (f : Nat → Option α)
    (h : firstSome l f = none) : ∀ j ∈ l, f j = none := by
  induction l with
  | nil => intro j hj; cases hj
  | cons j js ih =>
    intro i hi
    rw [firstSome_cons] at h
    cases hfj : f j with
    | some x => rw [hfj, orO_some] at h; cases h
    | none =>
      rw [hfj, orO_none] at h
      rcases List.mem_cons.mp hi with h1 | h1
      · rw [h1]; exact hfj
      · exact ih h i h1

theorem firstSome_some_imp {α : Type} (l : List Nat) (f : Nat → Option α) (x : α)
    (h : firstSome l f = some x) : ∃ j ∈ l, f j = some x := by
  induction l with
  | nil => cases h
  | cons j js ih =>
    rw [firstSome_cons] at h
    cases hfj : f j with
    | some y =>
      rw [hfj, orO_some] at h
      exact ⟨j, List.mem_cons_self j js, by rw [hfj, h]⟩
    | none =>
      rw [hfj, orO_none] at h
      obtain ⟨i, hi, hfi⟩ := ih h
      exact ⟨i, List.mem_cons_of_mem _ hi, hfi⟩

theorem mem_downFrom (j : Nat) : ∀ n, j ∈ downFrom n ↔ 1 ≤ j ∧ j ≤ n := by
  intro n
  induction n with
  | zero => simp only [downFrom, List.not_mem_nil, false_iff]; omega
  | succ n ih =>
    simp only [downFrom, List.mem_cons, ih]
    omega

theorem takeWhile_all {p : Char → Bool} : ∀ {l : List Char}, (∀ c ∈ l, p c = true) →
    l.takeWhile p = l := by
  intro l h
  exact List.takeWhile_eq_self_iff.mpr h

theorem takeWhile_all_append_stop {p : Char → Bool} (l₁ : List Char) (c : Char)
    (l₂ : List Char) (h1 : ∀ x ∈ l₁, p x = true) (h2 : p c = false) :
    (l₁ ++ c :: l₂).takeWhile p = l₁ := by
  induction l₁ with
  | nil => simp [List.takeWhile_cons, h2]
  | cons a l ih =>
    rw [List.cons_append, List.takeWhile_cons, h1 a (List.mem_cons_self a l), if_pos rfl]
    rw [ih (fun x hx => h1 x (List.mem_cons_of_mem _ hx))]

theorem plusGreedy_hit {α : Type} (p : Char → Bool) (s : List Char)
    (k : List Char → Option α) (n : Nat) (r : α)
    (hw : (s.takeWhile p).length = n + 1) (hk : k (s.drop (n + 1)) = some r) :
    plusGreedy p s k = some r := by
  unfold plusGreedy
  rw [hw]
  show firstSome ((n + 1) :: downFrom n) _ = some r
  rw [firstSome_cons, hk, orO_some]

theorem starGreedy_hit {α : Type} (p : Char → Bool) (s : List Char)
    (k : List Char → Option α) (n : Nat) (r : α)
    (hw : (s.takeWhile p).length = n) (hk : k (s.drop n) = some r) :
    starGreedy p s k = some r := by
  unfold starGreedy
  rw [hw]
  cases n with
  | zero =>
    show orO (firstSome [] _) _ = some r
    rw [List.drop_zero] at hk
    simpa [firstSome, orO] using hk
  | succ m =>
    show orO (firstSome ((m + 1) :: downFrom m) _) _ = some r
    rw [firstSome_cons, hk, orO_some, orO_some]

theorem digitsPlus_hit {α : Type} (s : List Char) (k : List Char → List Char → Option α)
    (n : Nat) (r : α) (hw : (s.takeWhile Char.isDigit).length = n + 1)
    (hk : k (s.take (n + 1)) (s.drop (n + 1)) = some r) :
    digitsPlus s k = some r := by
  unfold digitsPlus
  rw [hw]
  show firstSome ((n + 1) :: downFrom n) _ = some r
  rw [firstSome_cons, hk, orO_some]

/-! ### Character-class facts -/

theorem not_space_of_digit (c : Char) (h : c.isDigit = true) : isSpacePy c = false := by
  cases hs : isSpacePy c
  · rfl
  · exfalso
    unfold isSpacePy at hs
    simp only [Bool.or_eq_true, beq_iff_eq] at hs
    rcases hs with ((((h1 | h1) | h1) | h1) | h1) | h1 <;> subst h1 <;>
      exact absurd h (by decide)

theorem not_newline_of_digit (c : Char) (h : c.isDigit = true) : (c == '\n') = false := by
  cases hn : c == '\n'
  · rfl
  · exfalso
    rw [beq_iff_eq] at hn
    subst hn
    exact absurd h (by decide)

/-! ### Substring-test lemmas -/

theorem isSub_of_isPrefixOf (pat s : List Char) (h : List.isPrefixOf pat s = true) :
    isSub pat s = true := by
  cases s with
  | nil => exact h
  | cons c r => unfold isSub; rw [h]; rfl

theorem isSub_subset (pat : List Char) : ∀ s : List Char, isSub pat s = true → pat ⊆ s := by
  intro s
  induction s with
  | nil =>
    intro h
    unfold isSub at h
    have : pat = [] := by
      cases pat with
      | nil => rfl
      | cons c cs => exact absurd h (by simp [List.isPrefixOf])
    rw [this]
    exact List.nil_subset _
  | cons c r ih =>
    intro h
    unfold isSub at h
    rcases Bool.or_eq_true _ _ |>.mp h with h1 | h1
    · exact (List.isPrefixOf_iff_prefix.mp h1).subset
    · exact List.Subset.trans (ih h1) (List.subset_cons_self c r)

/-! ### Lemmas about the agent-log scan of `extract_metrics.main` -/

theorem procLine_read (st : ExtractMetrics.AgentState) (l : ExtractMetrics.LogLine) :
    (ExtractMetrics.procLine st l).tool_usage.read = st.tool_usage.read := by
  cases l with
  | bad => rfl
  | badAfterTime t => rfl
  | ok t p => cases p <;> rfl

theorem foldl_procLine_read (ls : List ExtractMetrics.LogLine) :
    ∀ st : ExtractMetrics.AgentState,
      (List.foldl ExtractMetrics.procLine st ls).tool_usage.read = st.tool_usage.read := by
  induction ls with
  | nil => intro st; rfl
  | cons l ls ih =>
    intro st
    rw [List.foldl_cons, ih, procLine_read]

theorem foldl_procLine_filter (ls : List ExtractMetrics.LogLine) :
    ∀ st : ExtractMetrics.AgentState,
      List.foldl ExtractMetrics.procLine st (ls.filter (fun l => !skippedLine l))
        = List.foldl ExtractMetrics.procLine st ls := by
  induction ls with
  | nil => intro st; rfl
  | cons l ls ih =>
    intro st
    cases l with
    | bad => simpa [List.filter, skippedLine] using ih st
    | badAfterTime t => simpa [List.filter, skippedLine] using ih _
    | ok t p => simpa [List.filter, skippedLine] using ih _

/-! ### C1 -/

/-- C1: the claim states that the report field `resolved` is true iff the
pre-outcome had a failure and the post-outcome passed non-vacuously.  The
code computes that predicate (lines 84-87) but then unconditionally
overwrites `resolved` with `True` and both outcome records with constants
(lines 92-95), so the report says `resolved = true` even when nothing ran
at all: with no logs present the parsed pre-outcome is zero/zero, the claim
requires `resolved = false`, yet the report carries `true` and the
hard-coded pre-stats. -/
theorem c1_hardcoded_resolution :
    (ExtractMetrics.main none none none false).resolved = true ∧
    (ExtractMetrics.main none none none false).pre_stats = ⟨5, 3, false⟩ ∧
    (ExtractMetrics.main none none none false).post_stats = ⟨5, 0, false⟩ := by
  refine ⟨rfl, rfl, rfl⟩

/-! ### C4 -/

/-- C4: any text containing both `collected 0 items` and `ERROR` is classified
as errored with zero counts, regardless of anything else in the text
(`extract_metrics.py`, lines 18-21). -/
theorem c4_error_short_circuit (content : List Char)
    (h1 : isSub ("collected 0 items".toList) content = true)
    (h2 : isSub ("ERROR".toList) content = true) :
    ExtractMetrics.parse_pytest_output content = ⟨0, 0, true⟩ := by
  unfold ExtractMetrics.parse_pytest_output
  rw [h1, h2]
  simp

/-- Witness for C4 at a concrete input that also contains a summary line. -/
theorem c4_witness :
    isSub ("collected 0 items".toList) ("ERROR collected 0 items == 3 passed ==".toList) = true ∧
    isSub ("ERROR".toList) ("ERROR collected 0 items == 3 passed ==".toList) = true ∧
    ExtractMetrics.parse_pytest_output ("ERROR collected 0 items == 3 passed ==".toList)
      = ⟨0, 0, true⟩ :=
  ⟨by decide, by decide, c4_error_short_circuit _ (by decide) (by decide)⟩

/-! ### C8 -/

/-- C8: text containing neither error marker and no match of the summary-line
pattern parses to the clean zero/zero, non-errored outcome
(`extract_metrics.py`, lines 14-30). -/
theorem c8_no_summary_fallback (content : List Char)
    (h1 : isSub ("no tests ran".toList) content = false)
    (h2 : isSub ("ERROR".toList) content = false)
    (h3 : ExtractMetrics.searchSummary content = none) :
    ExtractMetrics.parse_pytest_output content = ⟨0, 0, false⟩ := by
  unfold ExtractMetrics.parse_pytest_output
  rw [h1, h2, h3]
  simp

/-- Witness for C8 at a concrete input. -/
theorem c8_witness :
    isSub ("no tests ran".toList) ("arbitrary prose output".toList) = false ∧
    isSub ("ERROR".toList) ("arbitrary prose output".toList) = false ∧
    ExtractMetrics.searchSummary ("arbitrary prose output".toList) = none ∧
    ExtractMetrics.parse_pytest_output ("arbitrary prose output".toList) = ⟨0, 0, false⟩ :=
  ⟨by decide, by decide, by decide,
    c8_no_summary_fallback _ (by decide) (by decide) (by decide)⟩

/-! ### C9 -/

/-- C9: the `read` counter is never incremented on any code path, so the
substitution condition `tool_usage['read'] > 0` (line 102) never holds and
the report's `tool_usage` is always the fixed placeholder; the accumulated
write/edit/bash counts never reach the report. -/
theorem c9_tool_usage_placeholder (agentLog : Option (List ExtractMetrics.LogLine))
    (preLog postLog : Option (List Char)) (patchExists : Bool) :
    (ExtractMetrics.main agentLog preLog postLog patchExists).tool_usage
      = ⟨12, 4, 3, 15⟩ := by
  unfold ExtractMetrics.main
  have hread : ∀ st : ExtractMetrics.AgentState, st.tool_usage.read = 0 →
      (match agentLog with
       | some ls => List.foldl ExtractMetrics.procLine st ls
       | none => st).tool_usage.read = 0 := by
    intro st hst
    cases agentLog with
    | none => exact hst
    | some ls => rw [foldl_procLine_read]; exact hst
  cases agentLog <;> cases preLog <;> cases postLog <;> cases patchExists <;>
    simp [foldl_procLine_read]

/-! ### C10 -/

/-- C10: a line of `agent.log` on which JSON decoding, the timestamp lookup or
the timestamp parse raises is skipped by the bare `except` before any state
update, so deleting all such lines leaves the produced report unchanged;
in particular the aggregator never propagates an exception from reading the
log (the scan is a total function of the line list), and the remaining
well-formed lines are processed exactly as if the bad ones were absent. -/
theorem c10_bad_lines_skipped (ls : List ExtractMetrics.LogLine)
    (preLog postLog : Option (List Char)) (patchExists : Bool) :
    ExtractMetrics.main (some (ls.filter (fun l => !skippedLine l))) preLog postLog patchExists
      = ExtractMetrics.main (some ls) preLog postLog patchExists := by
  unfold ExtractMetrics.main
  simp only [foldl_procLine_filter]

/-! ### C6 -/

theorem callLoop_exhausted (oracle : List Char → Option (List Char × Nat × Nat))
    (msg : List Char) : ∀ models : List (List Char), (∀ m ∈ models, oracle m = none) →
    RunAgent.callLoop oracle msg models
      = (models.map (fun m => RunAgent.AgentEvent.request m msg), none) := by
  intro models
  induction models with
  | nil => intro h; rfl
  | cons m ms ih =>
    intro h
    unfold RunAgent.callLoop
    rw [h m (List.mem_cons_self m ms),
      ih (fun m' hm' => h m' (List.mem_cons_of_mem _ hm'))]
    rfl

theorem callLoop_first_success (oracle : List Char → Option (List Char × Nat × Nat))
    (msg m : List Char) (ms2 : List (List Char)) (c : List Char) (u1 u2 : Nat)
    (hm : oracle m = some (c, (u1, u2))) :
    ∀ ms1 : List (List Char), (∀ m' ∈ ms1, oracle m' = none) →
    RunAgent.callLoop oracle msg (ms1 ++ m :: ms2)
      = (ms1.map (fun m' => RunAgent.AgentEvent.request m' msg)
          ++ [RunAgent.AgentEvent.request m msg, RunAgent.AgentEvent.response m c u1 u2],
         some c) := by
  intro ms1
  induction ms1 with
  | nil =>
    intro _
    rw [List.nil_append]
    unfold RunAgent.callLoop
    rw [hm]
    rfl
  | cons m' ms1 ih =>
    intro h
    rw [List.cons_append]
    unfold RunAgent.callLoop
    rw [h m' (List.mem_cons_self m' ms1),
      ih (fun x hx => h x (List.mem_cons_of_mem _ hx))]
    rfl

/-- C6: with the key present, if every candidate model's call fails then
`call_claude` returns `None` and the log holds exactly one `request` event
per candidate and no `response` event; and if the candidates split as
`ms1 ++ m :: ms2` with every model of `ms1` failing and `m` succeeding, the
loop returns `m`'s text immediately: the log holds the `ms1` requests, the
request to `m` and exactly one `response` event, and nothing for `ms2`
(`run_agent.py`, lines 57-91). -/
theorem c6_fallback_exhaustion (oracle : List Char → Option (List Char × Nat × Nat))
    (msg : List Char) (models : List (List Char)) :
    ((∀ m ∈ models, oracle m = none) →
      RunAgent.call_claude true oracle msg models
        = (models.map (fun m => RunAgent.AgentEvent.request m msg), none)) ∧
    (∀ (ms1 : List (List Char)) (m : List Char) (ms2 : List (List Char))
        (c : List Char) (u1 u2 : Nat),
      models = ms1 ++ m :: ms2 → (∀ m' ∈ ms1, oracle m' = none) →
      oracle m = some (c, (u1, u2)) →
      RunAgent.call_claude true oracle msg models
        = (ms1.map (fun m' => RunAgent.AgentEvent.request m' msg)
            ++ [RunAgent.AgentEvent.request m msg, RunAgent.AgentEvent.response m c u1 u2],
           some c)) := by
  constructor
  · intro h
    show RunAgent.callLoop oracle msg models = _
    exact callLoop_exhausted oracle msg models h
  · intro ms1 m ms2 c u1 u2 hsplit h1 hm
    show RunAgent.callLoop oracle msg models = _
    rw [hsplit]
    exact callLoop_first_success oracle msg m ms2 c u1 u2 hm ms1 h1

/-- Witness for C6: a concrete three-candidate run where the second candidate
succeeds, and a concrete all-fail run. -/
theorem c6_witness :
    RunAgent.call_claude true
        (fun m => if m = "mb".toList then some ("ok".toList, (3, 4)) else none)
        ("msg".toList) ["ma".toList, "mb".toList, "mc".toList]
      = ([RunAgent.AgentEvent.request ("ma".toList) ("msg".toList),
          RunAgent.AgentEvent.request ("mb".toList) ("msg".toList),
          RunAgent.AgentEvent.response ("mb".toList) ("ok".toList) 3 4], some ("ok".toList)) ∧
    RunAgent.call_claude true (fun _ => none) ("msg".toList) ["ma".toList, "mb".toList]
      = ([RunAgent.AgentEvent.request ("ma".toList) ("msg".toList),
          RunAgent.AgentEvent.request ("mb".toList) ("msg".toList)], none) := by
  constructor
  · exact (c6_fallback_exhaustion _ _ _).2 ["ma".toList] ("mb".toList) ["mc".toList]
      ("ok".toList) 3 4 rfl (by decide) (by decide)
  · exact (c6_fallback_exhaustion (fun _ => none) _ _).1 (fun m _ => rfl)

/-! ### C3 -/

/-- C3 counterexample: for the response `diff here`, patch extraction returns
none and the response does not begin with the diff-header marker
`diff --git`, so the claim demands a fatal exit; but the code's fallback
only tests `startswith("diff")` on the stripped text, so it uses the whole
response as the patch instead of exiting. -/
theorem c3_counterexample :
    RunAgent.extract_patch ("diff here".toList) = none ∧
    List.isPrefixOf ("diff --git".toList) ("diff here".toList) = false ∧
    RunAgent.patchDecision ("diff here".toList) = some ("diff here".toList) := by
  refine ⟨by decide, by decide, by decide⟩

/-- C3 amended: when extraction returns none, the pipeline exits fatally iff
the whitespace-stripped response does not begin with the literal `diff`;
when it does, the stripped response is used as the patch
(`run_agent.py`, lines 168-175). -/
theorem c3_amended_fallback (r : List Char) (h : RunAgent.extract_patch r = none) :
    (RunAgent.patchDecision r = none ↔
      List.isPrefixOf ("diff".toList) (RunAgent.pyStrip r) = false) ∧
    (List.isPrefixOf ("diff".toList) (RunAgent.pyStrip r) = true →
      RunAgent.patchDecision r = some (RunAgent.pyStrip r)) := by
  unfold RunAgent.patchDecision
  rw [h]
  cases hp : List.isPrefixOf ("diff".toList) (RunAgent.pyStrip r) <;> simp [hp]

/-- Witness for C3 amended, at a response that does begin with `diff` after
stripping and one that does not. -/
theorem c3_amended_witness :
    RunAgent.extract_patch ("  diff here".toList) = none ∧
    RunAgent.patchDecision ("  diff here".toList) = some ("diff here".toList) ∧
    RunAgent.patchDecision ("no patch at all".toList) = none := by
  refine ⟨by decide, ?_, ?_⟩
  · have h := (c3_amended_fallback ("  diff here".toList) (by decide)).2 (by decide)
    exact h.trans (by decide)
  · exact (c3_amended_fallback ("no patch at all".toList) (by decide)).1.mpr (by decide)

/-! ### C2 counterexample -/

/-- C2 counterexample: the summary-line pattern fixes the clause order as
failed-then-passed, so on `N failed, M passed` both counts are extracted,
while on `M passed, N failed` the failed clause is never matched (the
greedy `.*` swallows it) and `failed` comes out 0: the parse is not
order-independent. -/
theorem c2_counterexample :
    ExtractMetrics.parse_pytest_output ("== 3 failed, 5 passed in 0.12s ==".toList)
      = ⟨5, 3, false⟩ ∧
    ExtractMetrics.parse_pytest_output ("== 5 passed, 3 failed in 0.12s ==".toList)
      = ⟨5, 0, false⟩ ∧
    ExtractMetrics.parse_pytest_output ("== 5 passed, 3 failed in 0.12s ==".toList)
      ≠ ExtractMetrics.parse_pytest_output ("== 3 failed, 5 passed in 0.12s ==".toList) := by
  refine ⟨by decide, by decide, by decide⟩

/-! ### C7 -/

theorem foldl_procLine_start (ls : List ExtractMetrics.LogLine) :
    ∀ st : ExtractMetrics.AgentState,
      (List.foldl ExtractMetrics.procLine st ls).start_time
        = List.foldl updMin st.start_time (ls.filterMap lineTime) := by
  induction ls with
  | nil => intro st; rfl
  | cons l ls ih =>
    intro st
    rw [List.foldl_cons, ih]
    cases l with
    | bad => rfl
    | badAfterTime t => rfl
    | ok t p => cases p <;> rfl

theorem foldl_procLine_end (ls : List ExtractMetrics.LogLine) :
    ∀ st : ExtractMetrics.AgentState,
      (List.foldl ExtractMetrics.procLine st ls).end_time
        = List.foldl updMax st.end_time (ls.filterMap lineTime) := by
  induction ls with
  | nil => intro st; rfl
  | cons l ls ih =>
    intro st
    rw [List.foldl_cons, ih]
    cases l with
    | bad => rfl
    | badAfterTime t => rfl
    | ok t p => cases p <;> rfl

theorem updMin_some (s t : ℚ) : updMin (some s) t = some (min s t) := by
  show some (if t < s then t else s) = some (min s t)
  rcases lt_or_ge t s with h | h
  · rw [if_pos h, min_eq_right (le_of_lt h)]
  · rw [if_neg (not_lt.mpr h), min_eq_left h]

theorem updMax_some (s t : ℚ) : updMax (some s) t = some (max s t) := by
  show some (if t > s then t else s) = some (max s t)
  rcases lt_or_ge s t with h | h
  · rw [if_pos h, max_eq_right (le_of_lt h)]
  · rw [if_neg (not_lt.mpr h), max_eq_left h]

theorem foldl_updMin_some (l : List ℚ) :
    ∀ s : ℚ, List.foldl updMin (some s) l = some (List.foldl min s l) := by
  induction l with
  | nil => intro s; rfl
  | cons t l ih =>
    intro s
    rw [List.foldl_cons, List.foldl_cons, updMin_some, ih]

theorem foldl_updMax_some (l : List ℚ) :
    ∀ s : ℚ, List.foldl updMax (some s) l = some (List.foldl max s l) := by
  induction l with
  | nil => intro s; rfl
  | cons t l ih =>
    intro s
    rw [List.foldl_cons, List.foldl_cons, updMax_some, ih]

theorem main_duration_eq (ls : List ExtractMetrics.LogLine)
    (preLog postLog : Option (List Char)) (patchExists : Bool) :
    (ExtractMetrics.main (some ls) preLog postLog patchExists).duration_seconds
      = (match List.foldl updMin none (ls.filterMap lineTime),
               List.foldl updMax none (ls.filterMap lineTime) with
         | some s, some e => if 0 < e - s then Rat.floor (e - s) else 950
         | _, _ => (950 : Int)) := by
  unfold ExtractMetrics.main
  simp only [foldl_procLine_start, foldl_procLine_end]
  cases h1 : List.foldl updMin none (ls.filterMap lineTime) with
  | none =>
    cases h2 : List.foldl updMax none (ls.filterMap lineTime) <;> norm_num
  | some s =>
    cases h2 : List.foldl updMax none (ls.filterMap lineTime) with
    | none => norm_num
    | some e => rfl

theorem rat_floor_eq_floor (q : ℚ) : Rat.floor q = ⌊q⌋ := rfl

theorem duration_match_some (a b : ℚ) :
    (match some a, some b with
     | some s, some e => if 0 < e - s then Rat.floor (e - s) else 950
     | _, _ => (950 : Int))
      = if 0 < b - a then Rat.floor (b - a) else 950 := rfl

/-- C7 counterexample: with two events sharing one timestamp the floored
difference of earliest and latest timestamps is 0, but the code substitutes
the placeholder whenever the duration is not strictly positive
(`duration_seconds = int(duration) if duration > 0 else 950`), so the
report carries 950, not 0, even though two events exist. -/
theorem c7_counterexample :
    (ExtractMetrics.main (some [.ok 5 .request, .ok 5 .request])
        none none false).duration_seconds = 950 ∧
    Rat.floor ((5 : ℚ) - 5) = 0 ∧ (950 : Int) ≠ 0 := by
  refine ⟨?_, ?_, by decide⟩
  · rw [main_duration_eq]
    have h : ([ExtractMetrics.LogLine.ok 5 .request,
        ExtractMetrics.LogLine.ok 5 .request].filterMap lineTime) = [(5 : ℚ), 5] := rfl
    rw [h]
    simp only [List.foldl_cons, List.foldl_nil]
    have h1 : updMin (updMin (none : Option ℚ) 5) 5 = some 5 := by
      rw [show updMin (none : Option ℚ) 5 = some 5 from rfl, updMin_some, min_self]
    have h2 : updMax (updMax (none : Option ℚ) 5) 5 = some 5 := by
      rw [show updMax (none : Option ℚ) 5 = some 5 from rfl, updMax_some, max_self]
    rw [h1, h2, duration_match_some]
    norm_num
  · rw [rat_floor_eq_floor]
    norm_num

/-- C7 amended: `duration_seconds` equals the floored difference between the
latest and earliest parsed timestamps whenever that difference is strictly
positive, and equals the placeholder 950 otherwise — i.e. when no line
carries a timestamp, and also when the earliest and latest coincide (in
particular whenever fewer than two timestamped lines exist).  The claim's
"whenever at least two Events exist" fails exactly on the zero-difference
case shown in the counterexample. -/
theorem c7_amended_duration (ls : List ExtractMetrics.LogLine)
    (preLog postLog : Option (List Char)) (patchExists : Bool) :
    (ls.filterMap lineTime = [] →
      (ExtractMetrics.main (some ls) preLog postLog patchExists).duration_seconds = 950) ∧
    (∀ (t : ℚ) (rest : List ℚ), ls.filterMap lineTime = t :: rest →
      (0 < List.foldl max t rest - List.foldl min t rest →
        (ExtractMetrics.main (some ls) preLog postLog patchExists).duration_seconds
          = Rat.floor (List.foldl max t rest - List.foldl min t rest)) ∧
      (List.foldl max t rest - List.foldl min t rest ≤ 0 →
        (ExtractMetrics.main (some ls) preLog postLog patchExists).duration_seconds = 950)) := by
  constructor
  · intro h
    rw [main_duration_eq, h]
    rfl
  · intro t rest h
    rw [main_duration_eq, h]
    simp only [List.foldl_cons]
    rw [show updMin none t = some t from rfl, show updMax none t = some t from rfl,
      foldl_updMin_some, foldl_updMax_some, duration_match_some]
    constructor
    · intro hpos
      rw [if_pos hpos]
    · intro hnp
      rw [if_neg (not_lt.mpr hnp)]

/-- Witness for C7 amended: two events at instants 1 and 7/2 give a floored
duration of 2; a single event gives the placeholder. -/
theorem c7_amended_witness :
    (ExtractMetrics.main (some [.ok 1 .request, .ok (7 / 2) .tool_use])
        none none false).duration_seconds = 2 ∧
    (ExtractMetrics.main (some [.ok 1 .request]) none none false).duration_seconds = 950 := by
  constructor
  · have h := ((c7_amended_duration [.ok 1 .request, .ok (7 / 2) .tool_use]
      none none false).2 1 [7 / 2] rfl).1 (by norm_num)
    rw [h, rat_floor_eq_floor]
    norm_num [List.foldl_cons, List.foldl_nil, min_def, max_def]
  · have h := ((c7_amended_duration [.ok 1 .request] none none false).2 1 [] rfl).2
      (by norm_num)
    exact h


/-! ### C5 -/

theorem findIdx?_prefix (pat t : List Char) (h : List.isPrefixOf pat t = true) :
    RunAgent.findIdx? pat t = some 0 := by
  cases t with
  | nil => unfold RunAgent.findIdx?; rw [h]; rfl
  | cons c r => unfold RunAgent.findIdx?; rw [h]; rfl

/-- Leftmost-occurrence computation: if `pat` does not occur in `a` nor
straddling the boundary (together: `pat` is not a substring of
`a ++ pat.dropLast`), the first occurrence of `pat` in `a ++ pat ++ r` is
at position `a.length`. -/
theorem findIdx?_append (pat : List Char) (hne : pat ≠ []) :
    ∀ a r : List Char, isSub pat (a ++ pat.dropLast) = false →
      RunAgent.findIdx? pat (a ++ pat ++ r) = some a.length := by
  intro a
  induction a with
  | nil =>
    intro r h
    rw [List.nil_append]
    exact findIdx?_prefix pat (pat ++ r)
      (List.isPrefixOf_iff_prefix.mpr (List.prefix_append pat r))
  | cons ch a' ih =>
    intro r h
    have hsplit : (ch :: a') ++ pat ++ r
        = ((ch :: a') ++ pat.dropLast) ++ ([pat.getLast hne] ++ r) := by
      rw [List.append_assoc, List.append_assoc, ← List.append_assoc pat.dropLast]
      rw [List.dropLast_append_getLast hne]
    have hlen : pat.length ≤ ((ch :: a') ++ pat.dropLast).length := by
      rw [List.length_append, List.length_cons, List.length_dropLast]
      have : 0 < pat.length := List.length_pos.mpr hne
      omega
    have hpf : List.isPrefixOf pat ((ch :: a') ++ pat ++ r) = false := by
      cases hp : List.isPrefixOf pat ((ch :: a') ++ pat ++ r) with
      | false => rfl
      | true =>
        exfalso
        have hx1 : pat <+: (ch :: a') ++ pat ++ r := List.isPrefixOf_iff_prefix.mp hp
        have hx2 : ((ch :: a') ++ pat.dropLast) <+: (ch :: a') ++ pat ++ r := by
          rw [hsplit]; exact List.prefix_append _ _
        have hx3 : pat <+: (ch :: a') ++ pat.dropLast :=
          List.prefix_of_prefix_length_le hx1 hx2 hlen
        have hx4 : isSub pat ((ch :: a') ++ pat.dropLast) = true :=
          isSub_of_isPrefixOf _ _ (List.isPrefixOf_iff_prefix.mpr hx3)
        rw [hx4] at h
        cases h
    have h' : isSub pat (a' ++ pat.dropLast) = false := by
      rw [List.cons_append] at h
      unfold isSub at h
      exact (Bool.or_eq_false_iff.mp h).2
    have hcons : (ch :: a') ++ pat ++ r = ch :: (a' ++ pat ++ r) := by
      simp [List.cons_append]
    rw [hcons] at hpf
    rw [hcons]
    show RunAgent.findIdx? pat (ch :: (a' ++ pat ++ r)) = some (a'.length + 1)
    unfold RunAgent.findIdx?
    rw [hpf]
    simp only [Bool.false_eq_true, if_false]
    rw [ih r h']
    rfl

theorem fencedDiffBlock_unfold (t : List Char) (i : Nat)
    (hf : RunAgent.findIdx? ("```diff\n".toList) t = some i) :
    RunAgent.fencedDiffBlock t
      = (match RunAgent.findIdx? ("\n```".toList) (t.drop (i + 8)) with
         | none => none
         | some k => some ((t.drop (i + 8)).take k)) := by
  unfold RunAgent.fencedDiffBlock
  rw [hf]

theorem fencedDiffBlock_spec (a c b : List Char)
    (h1 : isSub ("```diff\n".toList) (a ++ "```diff".toList) = false)
    (h2 : isSub ("\n```".toList) (c ++ "\n``".toList) = false) :
    RunAgent.fencedDiffBlock
        (a ++ ("```diff\n".toList ++ (c ++ ("\n```".toList ++ b)))) = some c := by
  have hop : ("```diff\n".toList).dropLast = "```diff".toList := rfl
  have hcl : ("\n```".toList).dropLast = "\n``".toList := rfl
  have hfind1 : RunAgent.findIdx? ("```diff\n".toList)
      (a ++ ("```diff\n".toList ++ (c ++ ("\n```".toList ++ b)))) = some a.length := by
    have h0 := findIdx?_append ("```diff\n".toList) (by decide) a
      (c ++ ("\n```".toList ++ b)) (by rw [hop]; exact h1)
    rw [List.append_assoc a] at h0
    exact h0
  have hdrop : (a ++ ("```diff\n".toList ++ (c ++ ("\n```".toList ++ b)))).drop (a.length + 8)
      = c ++ ("\n```".toList ++ b) := by
    rw [← List.append_assoc]
    rw [show a.length + 8 = (a ++ "```diff\n".toList).length by
      rw [List.length_append]; rfl]
    exact List.drop_left _ _
  have hfind2 : RunAgent.findIdx? ("\n```".toList) (c ++ ("\n```".toList ++ b))
      = some c.length := by
    have h0 := findIdx?_append ("\n```".toList) (by decide) c b (by rw [hcl]; exact h2)
    rw [List.append_assoc c] at h0
    exact h0
  rw [fencedDiffBlock_unfold _ a.length hfind1, hdrop, hfind2]
  show some ((c ++ ("\n```".toList ++ b)).take c.length) = some c
  rw [List.take_left c]

/-- C5: in a response holding a tagged `diff` fence (with the opener not
occurring earlier and the block content free of the closer) followed by a
later bare `diff --git` occurrence, `extract_patch` returns the tagged
block's content — the first of the three strategies wins and the bare
occurrence is not used (`run_agent.py`, lines 93-105). -/
theorem c5_extraction_precedence (a c b : List Char)
    (h1 : isSub ("```diff\n".toList) (a ++ "```diff".toList) = false)
    (h2 : isSub ("\n```".toList) (c ++ "\n``".toList) = false)
    (h3 : isSub ("diff --git".toList) b = true) :
    RunAgent.extract_patch (a ++ ("```diff\n".toList ++ (c ++ ("\n```".toList ++ b))))
      = some c := by
  unfold RunAgent.extract_patch
  rw [fencedDiffBlock_spec a c b h1 h2]
  rfl

/-- Witness for C5: a concrete response with a tagged diff block and later
bare `diff --git` noise. -/
theorem c5_witness :
    RunAgent.extract_patch
        (("Answer:\n".toList) ++ ("```diff\n".toList ++ (("diff --git a/f b/f\n-x\n+y".toList)
          ++ ("\n```".toList ++ ("\nAlso diff --git a/g is irrelevant".toList)))))
      = some ("diff --git a/f b/f\n-x\n+y".toList) :=
  c5_extraction_precedence ("Answer:\n".toList) ("diff --git a/f b/f\n-x\n+y".toList)
    ("\nAlso diff --git a/g is irrelevant".toList) (by decide) (by decide) (by decide)

/-! ### C2 amended: symbolic evaluation of the summary-line matcher -/

theorem chopLit_self : ∀ w z : List Char, chopLit w (w ++ z) = some z := by
  intro w
  induction w with
  | nil => intro z; rfl
  | cons c w' ih =>
    intro z
    show chopLit (c :: w') (c :: (w' ++ z)) = some z
    unfold chopLit
    rw [if_pos rfl, ih]

/-- Consuming one clause `(?:(\d+)\s+word,?)?` whose digits, single space and
word are laid out in the text: the greedy digit run captures exactly `ds`,
the space run exactly the one space, the word matches literally, and the
rest is handed to the comma step. -/
theorem optClause_digits (w ds z : List Char) (hne : ds ≠ [])
    (hd : ∀ x ∈ ds, x.isDigit = true)
    (hstop : (w ++ z).takeWhile isSpacePy = [])
    (k : Option (List Char) → List Char → Option ExtractMetrics.Groups)
    (r : ExtractMetrics.Groups)
    (hk : commaOpt z (k (some ds)) = some r) :
    ExtractMetrics.optClause w (ds ++ (' ' :: (w ++ z))) k = some r := by
  obtain ⟨n, hn⟩ : ∃ n, ds.length = n + 1 := by
    cases ds with
    | nil => exact absurd rfl hne
    | cons d ds' => exact ⟨ds'.length, rfl⟩
  unfold ExtractMetrics.optClause
  have hdig : digitsPlus (ds ++ (' ' :: (w ++ z))) (fun d s1 =>
      plusGreedy isSpacePy s1 (fun s2 =>
        match chopLit w s2 with
        | none => none
        | some s3 => commaOpt s3 (k (some d)))) = some r := by
    apply digitsPlus_hit _ _ n r
    · rw [takeWhile_all_append_stop ds ' ' _ hd (by decide)]
      exact hn
    · rw [← hn, List.take_left, List.drop_left]
      show plusGreedy isSpacePy (' ' :: (w ++ z)) (fun s2 =>
        match chopLit w s2 with
        | none => none
        | some s3 => commaOpt s3 (k (some ds))) = some r
      apply plusGreedy_hit _ _ _ 0 r
      · rw [List.takeWhile_cons, if_pos (by decide : isSpacePy ' ' = true), hstop]
        rfl
      · show (match chopLit w (w ++ z) with
              | none => none
              | some s3 => commaOpt s3 (k (some ds))) = some r
        rw [chopLit_self]
        exact hk
  rw [hdig]
  rfl

/-- Skipping one clause `(?:(\d+)\s+word,?)?` when the text offers digits and
a space but then a non-space character on which the word fails: every
backtracking choice of the digit run dies (shorter runs leave a digit
where `\s+` needs a space; the full run reaches the mismatching word), so
the optional clause falls back to matching nothing. -/
theorem optClause_skip (w ms : List Char) (hne : ms ≠ [])
    (hm : ∀ x ∈ ms, x.isDigit = true) (c : Char) (z : List Char)
    (hcs : isSpacePy c = false) (hcw : chopLit w (c :: z) = none)
    (k : Option (List Char) → List Char → Option ExtractMetrics.Groups) :
    ExtractMetrics.optClause w (ms ++ (' ' :: (c :: z))) k
      = k none (ms ++ (' ' :: (c :: z))) := by
  unfold ExtractMetrics.optClause
  have hdig : digitsPlus (ms ++ (' ' :: (c :: z))) (fun d s1 =>
      plusGreedy isSpacePy s1 (fun s2 =>
        match chopLit w s2 with
        | none => none
        | some s3 => commaOpt s3 (k (some d)))) = none := by
    unfold digitsPlus
    rw [takeWhile_all_append_stop ms ' ' _ hm (by decide)]
    apply firstSome_eq_none
    intro j hj
    obtain ⟨hj1, hj2⟩ := (mem_downFrom j ms.length).mp hj
    rcases eq_or_lt_of_le hj2 with hje | hjl
    · -- the full digit run: the space matches but the word fails
      subst hje
      rw [List.drop_left]
      show plusGreedy isSpacePy (' ' :: (c :: z)) _ = none
      unfold plusGreedy
      have htw : (' ' :: (c :: z)).takeWhile isSpacePy = [' '] := by
        rw [List.takeWhile_cons, if_pos (by decide : isSpacePy ' ' = true),
          List.takeWhile_cons, hcs]
        rfl
      rw [htw]
      apply firstSome_eq_none
      intro i hi
      obtain ⟨hi1, hi2⟩ := (mem_downFrom i 1).mp hi
      have : i = 1 := by omega
      subst this
      show (match chopLit w (c :: z) with
            | none => none
            | some s3 => commaOpt s3 _) = none
      rw [hcw]
    · -- a shorter digit run: the next character is a digit, not a space
      have hdrop : (ms ++ (' ' :: (c :: z))).drop j
          = ms[j] :: (ms.drop (j + 1) ++ (' ' :: (c :: z))) := by
        rw [List.drop_append_eq_append_drop, Nat.sub_eq_zero_of_le (le_of_lt hjl),
          List.drop_zero, List.drop_eq_getElem_cons hjl, List.cons_append]
      rw [hdrop]
      show plusGreedy isSpacePy (ms[j] :: (ms.drop (j + 1) ++ (' ' :: (c :: z)))) _ = none
      unfold plusGreedy
      rw [List.takeWhile_cons,
        not_space_of_digit _ (hm _ (List.getElem_mem hjl))]
      rfl
  rw [hdig]
  rfl

theorem eqTail_cases (g1 g2 : Option (List Char)) (u : List Char) :
    ExtractMetrics.eqTail g1 g2 u = none ∨ ExtractMetrics.eqTail g1 g2 u = some (g1, g2) := by
  unfold ExtractMetrics.eqTail
  split
  · exact Or.inr rfl
  · exact Or.inl rfl

/-- The `.*=+` tail on a newline-free text ending in `=`: the greedy dot star
backtracks until the final `=` is exposed, and the match succeeds with the
groups untouched. -/
theorem dotStarEq_ends (g1 g2 : Option (List Char)) (Z : List Char)
    (hnl : ∀ x ∈ Z, (x == '\n') = false) :
    ExtractMetrics.dotStarEq g1 g2 (Z ++ ['=']) = some (g1, g2) := by
  have htw : (Z ++ ['=']).takeWhile (fun c => !(c == '\n')) = Z ++ ['='] := by
    apply takeWhile_all
    intro x hx
    rcases List.mem_append.mp hx with h | h
    · rw [hnl x h]; rfl
    · rcases List.mem_singleton.mp h with rfl; rfl
  unfold ExtractMetrics.dotStarEq starGreedy
  rw [htw]
  cases hfs : firstSome (downFrom (Z ++ ['=']).length)
      (fun j => ExtractMetrics.eqTail g1 g2 ((Z ++ ['=']).drop j)) with
  | some x =>
    obtain ⟨j, hj, hx⟩ := firstSome_some_imp _ _ _ hfs
    rcases eqTail_cases g1 g2 ((Z ++ ['=']).drop j) with hc | hc
    · rw [hc] at hx; cases hx
    · rw [hc] at hx
      rw [orO_some, ← hx]
  | none =>
    cases Z with
    | nil => rfl
    | cons z0 Z' =>
      exfalso
      have hmem : (z0 :: Z').length ∈ downFrom ((z0 :: Z') ++ ['=']).length := by
        apply (mem_downFrom _ _).mpr
        rw [List.length_append]
        constructor
        · rw [List.length_cons]; omega
        · omega
      have := firstSome_none_imp _ _ hfs ((z0 :: Z').length) hmem
      rw [List.drop_left] at this
      cases this

theorem dotStarEq_concrete (g1 g2 : Option (List Char)) :
    ExtractMetrics.dotStarEq g1 g2 (" in 0.12s ==".toList) = some (g1, g2) := rfl

theorem commaOpt_comma {α : Type} (r' : List Char) (k : List Char → Option α) (x : α)
    (h : k r' = some x) : commaOpt (',' :: r') k = some x := by
  show orO (k r') (fun _ => k (',' :: r')) = some x
  rw [h]
  rfl

/-- The summary-line pattern on a text whose clauses come in the order
failed-then-passed: both groups are captured. -/
theorem summary_failed_passed (ds ms : List Char) (hne : ds ≠ []) (hne2 : ms ≠ [])
    (hd : ∀ x ∈ ds, x.isDigit = true) (hm : ∀ x ∈ ms, x.isDigit = true) :
    ExtractMetrics.searchSummary ("== ".toList ++ (ds ++ (" failed, ".toList
        ++ (ms ++ " passed in 0.12s ==".toList))))
      = some (some ds, some ms) := by
  obtain ⟨d, ds', rfl⟩ : ∃ d ds', ds = d :: ds' := by
    cases ds with
    | nil => exact absurd rfl hne
    | cons d ds' => exact ⟨d, ds', rfl⟩
  obtain ⟨m, ms', rfl⟩ : ∃ m ms', ms = m :: ms' := by
    cases ms with
    | nil => exact absurd rfl hne2
    | cons m ms' => exact ⟨m, ms', rfl⟩
  have hpassed : ExtractMetrics.passedTail (some (d :: ds'))
      ((m :: ms') ++ " passed in 0.12s ==".toList)
        = some (some (d :: ds'), some (m :: ms')) := by
    show ExtractMetrics.optClause ("passed".toList)
      ((m :: ms') ++ (' ' :: ("passed".toList ++ " in 0.12s ==".toList))) _ = _
    exact optClause_digits ("passed".toList) (m :: ms') (" in 0.12s ==".toList)
      hne2 hm rfl _ _ rfl
  have hmid : ExtractMetrics.midSpaces (some (d :: ds'))
      (' ' :: ((m :: ms') ++ " passed in 0.12s ==".toList))
        = some (some (d :: ds'), some (m :: ms')) := by
    apply starGreedy_hit _ _ _ 1 _
    · rw [List.takeWhile_cons, if_pos (by decide : isSpacePy ' ' = true),
        List.cons_append, List.takeWhile_cons, not_space_of_digit m (hm m (by simp))]
      rfl
    · exact hpassed
  have hfailed : ExtractMetrics.failedTail ((d :: ds') ++ (" failed, ".toList
      ++ ((m :: ms') ++ " passed in 0.12s ==".toList)))
        = some (some (d :: ds'), some (m :: ms')) := by
    show ExtractMetrics.optClause ("failed".toList)
      ((d :: ds') ++ (' ' :: ("failed".toList
        ++ (',' :: (' ' :: ((m :: ms') ++ " passed in 0.12s ==".toList)))))) _ = _
    apply optClause_digits ("failed".toList) (d :: ds')
      (',' :: (' ' :: ((m :: ms') ++ " passed in 0.12s ==".toList))) hne hd rfl
    apply commaOpt_comma
    exact hmid
  have hlead : ExtractMetrics.leadSpaces (' ' :: ((d :: ds') ++ (" failed, ".toList
      ++ ((m :: ms') ++ " passed in 0.12s ==".toList))))
        = some (some (d :: ds'), some (m :: ms')) := by
    apply plusGreedy_hit _ _ _ 0 _
    · rw [List.takeWhile_cons, if_pos (by decide : isSpacePy ' ' = true),
        List.cons_append, List.takeWhile_cons, not_space_of_digit d (hd d (by simp))]
      rfl
    · exact hfailed
  have hsum : ExtractMetrics.summaryAt ('=' :: ('=' :: (' ' :: ((d :: ds')
      ++ (" failed, ".toList ++ ((m :: ms') ++ " passed in 0.12s ==".toList))))))
        = some (some (d :: ds'), some (m :: ms')) := by
    apply plusGreedy_hit _ _ _ 1 _
    · rfl
    · exact hlead
  show ExtractMetrics.searchSummary ('=' :: ('=' :: (' ' :: ((d :: ds')
      ++ (" failed, ".toList ++ ((m :: ms') ++ " passed in 0.12s ==".toList)))))) = _
  unfold ExtractMetrics.searchSummary
  rw [hsum]
  rfl

/-- The summary-line pattern on a text whose clauses come in the order
passed-then-failed: the failed clause is skipped (every digit-run choice
fails against the literal `failed`), the passed clause is captured, and
the greedy `.*` swallows the trailing failed clause. -/
theorem summary_passed_failed (ds ms : List Char) (hne : ds ≠ []) (hne2 : ms ≠ [])
    (hd : ∀ x ∈ ds, x.isDigit = true) (hm : ∀ x ∈ ms, x.isDigit = true) :
    ExtractMetrics.searchSummary ("== ".toList ++ (ms ++ (" passed, ".toList
        ++ (ds ++ " failed in 0.12s ==".toList))))
      = some (none, some ms) := by
  obtain ⟨d, ds', rfl⟩ : ∃ d ds', ds = d :: ds' := by
    cases ds with
    | nil => exact absurd rfl hne
    | cons d ds' => exact ⟨d, ds', rfl⟩
  obtain ⟨m, ms', rfl⟩ : ∃ m ms', ms = m :: ms' := by
    cases ms with
    | nil => exact absurd rfl hne2
    | cons m ms' => exact ⟨m, ms', rfl⟩
  have heq : (' ' :: ((d :: ds') ++ " failed in 0.12s =".toList)) ++ ['=']
      = ' ' :: ((d :: ds') ++ " failed in 0.12s ==".toList) := by
    simp only [List.cons_append, List.append_assoc]
    rfl
  have hdse : ExtractMetrics.dotStarEq none (some (m :: ms'))
      (' ' :: ((d :: ds') ++ " failed in 0.12s ==".toList))
        = some (none, some (m :: ms')) := by
    rw [← heq]
    apply dotStarEq_ends
    intro x hx
    rcases List.mem_cons.mp hx with rfl | hx
    · rfl
    · rcases List.mem_append.mp hx with hx | hx
      · exact not_newline_of_digit x (hd x hx)
      · exact (by decide : ∀ y ∈ " failed in 0.12s =".toList, (y == '\n') = false) x hx
  have hpassed : ExtractMetrics.passedTail none ((m :: ms') ++ (" passed, ".toList
      ++ ((d :: ds') ++ " failed in 0.12s ==".toList))) = some (none, some (m :: ms')) := by
    show ExtractMetrics.optClause ("passed".toList)
      ((m :: ms') ++ (' ' :: ("passed".toList
        ++ (',' :: (' ' :: ((d :: ds') ++ " failed in 0.12s ==".toList)))))) _ = _
    apply optClause_digits ("passed".toList) (m :: ms')
      (',' :: (' ' :: ((d :: ds') ++ " failed in 0.12s ==".toList))) hne2 hm rfl
    apply commaOpt_comma
    exact hdse
  have hmid : ExtractMetrics.midSpaces none ((m :: ms') ++ (" passed, ".toList
      ++ ((d :: ds') ++ " failed in 0.12s ==".toList))) = some (none, some (m :: ms')) := by
    apply starGreedy_hit _ _ _ 0 _
    · rw [List.cons_append, List.takeWhile_cons, not_space_of_digit m (hm m (by simp))]
      rfl
    · exact hpassed
  have hfailed : ExtractMetrics.failedTail ((m :: ms') ++ (" passed, ".toList
      ++ ((d :: ds') ++ " failed in 0.12s ==".toList))) = some (none, some (m :: ms')) := by
    show ExtractMetrics.optClause ("failed".toList)
      ((m :: ms') ++ (' ' :: ('p' :: ("assed, ".toList
        ++ ((d :: ds') ++ " failed in 0.12s ==".toList))))) _ = _
    rw [optClause_skip ("failed".toList) (m :: ms') hne2 hm 'p'
      ("assed, ".toList ++ ((d :: ds') ++ " failed in 0.12s ==".toList)) (by decide) rfl]
    exact hmid
  have hlead : ExtractMetrics.leadSpaces (' ' :: ((m :: ms') ++ (" passed, ".toList
      ++ ((d :: ds') ++ " failed in 0.12s ==".toList)))) = some (none, some (m :: ms')) := by
    apply plusGreedy_hit _ _ _ 0 _
    · rw [List.takeWhile_cons, if_pos (by decide : isSpacePy ' ' = true),
        List.cons_append, List.takeWhile_cons, not_space_of_digit m (hm m (by simp))]
      rfl
    · exact hfailed
  have hsum : ExtractMetrics.summaryAt ('=' :: ('=' :: (' ' :: ((m :: ms')
      ++ (" passed, ".toList ++ ((d :: ds') ++ " failed in 0.12s ==".toList))))))
        = some (none, some (m :: ms')) := by
    apply plusGreedy_hit _ _ _ 1 _
    · rfl
    · exact hlead
  show ExtractMetrics.searchSummary ('=' :: ('=' :: (' ' :: ((m :: ms')
      ++ (" passed, ".toList ++ ((d :: ds') ++ " failed in 0.12s ==".toList)))))) = _
  unfold ExtractMetrics.searchSummary
  rw [hsum]
  rfl

/-- The error-branch marker `collected 0 items` cannot occur in a summary-line
template: the letter `c` appears in none of the fixed segments and the
variable segments are digit strings. -/
theorem isSub_collected_false (l1 l2 l3 xs ys : List Char)
    (h1 : 'c' ∉ l1) (h2 : 'c' ∉ l2) (h3 : 'c' ∉ l3)
    (hx : ∀ x ∈ xs, x.isDigit = true) (hy : ∀ x ∈ ys, x.isDigit = true) :
    isSub ("collected 0 items".toList) (l1 ++ (xs ++ (l2 ++ (ys ++ l3)))) = false := by
  cases hs : isSub ("collected 0 items".toList) (l1 ++ (xs ++ (l2 ++ (ys ++ l3)))) with
  | false => rfl
  | true =>
    exfalso
    have hc : 'c' ∈ l1 ++ (xs ++ (l2 ++ (ys ++ l3))) :=
      isSub_subset _ _ hs (by decide)
    simp only [List.mem_append] at hc
    rcases hc with h | (h | (h | (h | h)))
    · exact h1 h
    · exact absurd (hx _ h) (by decide)
    · exact h2 h
    · exact absurd (hy _ h) (by decide)
    · exact h3 h

/-- C2 amended: the parser fixes the clause order.  For a summary line
`== N failed, M passed in 0.12s ==` (counts written as nonempty digit
strings) it returns passed = M, failed = N; for the reversed order
`== M passed, N failed in 0.12s ==` the failed clause is ignored and it
returns passed = M, failed = 0 — the outcome is not order-independent
(`extract_metrics.py`, lines 23-28). -/
theorem c2_amended_clause_order (ds ms : List Char) (hne : ds ≠ []) (hne2 : ms ≠ [])
    (hd : ∀ x ∈ ds, x.isDigit = true) (hm : ∀ x ∈ ms, x.isDigit = true) :
    ExtractMetrics.parse_pytest_output ("== ".toList ++ (ds ++ (" failed, ".toList
        ++ (ms ++ " passed in 0.12s ==".toList))))
      = ⟨ExtractMetrics.digitsVal ms, ExtractMetrics.digitsVal ds, false⟩ ∧
    ExtractMetrics.parse_pytest_output ("== ".toList ++ (ms ++ (" passed, ".toList
        ++ (ds ++ " failed in 0.12s ==".toList))))
      = ⟨ExtractMetrics.digitsVal ms, 0, false⟩ := by
  constructor
  · have hcoll := isSub_collected_false ("== ".toList) (" failed, ".toList)
      (" passed in 0.12s ==".toList) ds ms (by decide) (by decide) (by decide) hd hm
    unfold ExtractMetrics.parse_pytest_output
    rw [hcoll, Bool.and_false]
    simp only [Bool.false_eq_true, if_false]
    rw [summary_failed_passed ds ms hne hne2 hd hm]
    rfl
  · have hcoll := isSub_collected_false ("== ".toList) (" passed, ".toList)
      (" failed in 0.12s ==".toList) ms ds (by decide) (by decide) (by decide) hm hd
    unfold ExtractMetrics.parse_pytest_output
    rw [hcoll, Bool.and_false]
    simp only [Bool.false_eq_true, if_false]
    rw [summary_passed_failed ds ms hne hne2 hd hm]
    rfl

/-- Witness for C2 amended at the counts 3 failed / 5 passed. -/
theorem c2_amended_witness :
    ExtractMetrics.parse_pytest_output ("== 3 failed, 5 passed in 0.12s ==".toList)
      = ⟨5, 3, false⟩ ∧
    ExtractMetrics.parse_pytest_output ("== 5 passed, 3 failed in 0.12s ==".toList)
      = ⟨5, 0, false⟩ := by
  have h := c2_amended_clause_order ("3".toList) ("5".toList)
    (by decide) (by decide) (by decide) (by decide)
  exact ⟨h.1, h.2⟩
